import Mathlib

/-!
Shallow embedding of the skinsense-backend repository (three Python files:
SkinCancerModelCreation.py — dataset assembly, training, evaluation;
api.py — the JSON inference API; app.py — the older HTML serving variant)
together with theorems settling the specification claims.

Machine reals (numpy/keras floats) are modelled by exact rationals; pixel
values are the raw numeric values the Python code manipulates.  The float
function exp underlying the softmax layer is modelled by a strictly
positive rational function; every property proved about the softmax
output uses only positivity of the numerators, which holds for the real
exp as well.
-/

namespace SkinSense

/-! ### Network topology (SkinCancerModelCreation.py, lines 136-172)

Each `model.add(...)` call is transcribed, in order, as one element of
`modelLayers`.  The dropout rate 0.2 is carried as the pair (2, 10); a
dense layer records its unit count and whether it carries the
`kernel_regularizer=keras.regularizers.L1L2()` argument. -/

inductive Layer where
  | inputL (h w c : Nat)
  | conv2d (filters : Nat)
  | maxPooling
  | batchNorm
  | flattenL
  | dropout (num den : Nat)
  | dense (units : Nat) (l1l2 : Bool)
  | denseSoftmax (units : Nat)
  deriving DecidableEq, Repr

/-- The `keras.models.Sequential` model built in SkinCancerModelCreation.py:
Input 28x28x3; Conv32, pool, BN; Conv64, Conv64, pool, BN; Conv128, Conv128,
pool, BN; Conv256, Conv256, pool; Flatten; Dropout 0.2; Dense256, BN;
Dense128, BN; Dense64, BN; Dense32 (with L1L2 regularizer), BN;
Dense 8 softmax. -/
def modelLayers : List Layer :=
  [ .inputL 28 28 3
  , .conv2d 32, .maxPooling, .batchNorm
  , .conv2d 64, .conv2d 64, .maxPooling, .batchNorm
  , .conv2d 128, .conv2d 128, .maxPooling, .batchNorm
  , .conv2d 256, .conv2d 256, .maxPooling
  , .flattenL
  , .dropout 2 10
  , .dense 256 false, .batchNorm
  , .dense 128 false, .batchNorm
  , .dense 64 false, .batchNorm
  , .dense 32 true, .batchNorm
  , .denseSoftmax 8 ]

/-- The ordered list of adjacent layer pairs of the network. -/
def adjacentLayerPairs : List (Layer × Layer) := modelLayers.zip modelLayers.tail

/-- A dense layer of the given width and regularizer flag is (somewhere)
immediately followed by a batch-normalization layer. -/
def denseFollowedByBN (u : Nat) (reg : Bool) : Bool :=
  adjacentLayerPairs.contains (Layer.dense u reg, Layer.batchNorm)

/-- Is this layer a dense layer carrying the L1L2 kernel regularizer? -/
def isRegularizedDense : Layer → Bool
  | Layer.dense _ r => r
  | _ => false

/-! ### Preprocessing policies (SkinCancerModelCreation.py lines 116-123,
api.py lines 149-162)

An `ImageDataGenerator` configuration is recorded by its rescale factor
and geometric-perturbation ranges. -/

structure AugPolicy where
  rescale : ℚ
  rotation_range : ℚ
  zoom_range : ℚ
  width_shift_range : ℚ
  height_shift_range : ℚ

/-- Line 117-121: `ImageDataGenerator(rescale=(1./255), rotation_range=10,
zoom_range=0.1, width_shift_range=0.1, height_shift_range=0.1)`. -/
def datagen : AugPolicy := ⟨1/255, 10, 1/10, 1/10, 1/10⟩

/-- Line 123: `ImageDataGenerator(rescale=(1./255))`; the omitted geometric
arguments default to 0. -/
def testgen : AugPolicy := ⟨1/255, 0, 0, 0, 0⟩

/-- A policy applies no geometric perturbation. -/
def noGeometric (p : AugPolicy) : Prop :=
  p.rotation_range = 0 ∧ p.zoom_range = 0 ∧
  p.width_shift_range = 0 ∧ p.height_shift_range = 0

/-- The per-pixel effect of a generator policy: multiply by the rescale
factor. -/
def applyRescale (p : AugPolicy) (img : List ℚ) : List ℚ :=
  img.map (fun v => p.rescale * v)

/-- The per-pixel preprocessing of api.py `analyze_image` lines 156-159:
`load_img(image_path, target_size=(28, 28))` (resize only), `img_to_array`,
`np.expand_dims`, `np.vstack` — none of these changes a pixel value, so the
pixel transform is the identity. -/
def analyzePreprocess (img : List ℚ) : List ℚ := img.map (fun v => v)

/-- The pixel values handed to `model.fit(X_train, ...)` at line 178: the
raw arrays, untouched — neither `datagen` nor `testgen` is connected to the
fit call. -/
def fitInputPixels (img : List ℚ) : List ℚ := img.map (fun v => v)

/-- The pixel values handed to `model.evaluate(X_test, ...)` at line 230:
again the raw arrays, with no generator applied. -/
def evaluateInputPixels (img : List ℚ) : List ℚ := img.map (fun v => v)

/-! ### Softmax, argmax, max (keras softmax layer; numpy argmax/max) -/

/-- Computable rational stand-in for the float `exp` of the softmax layer:
strictly positive everywhere, which is the only property of `exp` the
softmax normalization uses. -/
def qexp (q : ℚ) : ℚ := if 0 ≤ q then 1 + q else 1 / (1 - q)

/-- Normalization constant of the softmax over the 8 output units. -/
def sumExp (z : Fin 8 → ℚ) : ℚ :=
  ((List.finRange 8).map (fun j => qexp (z j))).sum

/-- The 8-way softmax activation of the final `Dense(units=8,
activation='softmax')` layer. -/
def softmax (z : Fin 8 → ℚ) : Fin 8 → ℚ :=
  fun i => qexp (z i) / sumExp z

/-- `np.argmax` over an 8-entry vector: the first index attaining the
maximum (a later index replaces the current best only on strict
improvement). -/
def argmaxIdx (p : Fin 8 → ℚ) : Fin 8 :=
  (List.finRange 8).foldl (fun best i => if p best < p i then i else best) 0

/-- `np.max` over an 8-entry vector. -/
def npmax (p : Fin 8 → ℚ) : ℚ :=
  ((List.finRange 8).map p).foldl max (p 0)

/-! ### File-extension validation (api.py, lines 137-140)

`allowed_file(filename)` is
`'.' in filename and filename.rsplit('.', 1)[1].lower() in ALLOWED_EXTENSIONS`
with `ALLOWED_EXTENSIONS = \x7b'png', 'jpg', 'jpeg', 'gif'\x7d`. -/

def ALLOWED_EXTENSIONS : List String := ["png", "jpg", "jpeg", "gif"]

/-- Python `str.lower` restricted to ASCII, which is all the extension
comparison needs. -/
def lowerChar (c : Char) : Char :=
  if 'A' ≤ c ∧ c ≤ 'Z' then Char.ofNat (c.toNat + 32) else c

def lowerStr (s : String) : String := String.mk (s.data.map lowerChar)

/-- `filename.rsplit('.', 1)[1]` when a dot is present: the suffix after the
last dot (returns the whole string when no dot occurs, but `allowed_file`
only consults it under the dot guard). -/
def extOf (s : String) : String :=
  String.mk ((s.data.reverse.takeWhile (fun c => c ≠ '.')).reverse)

/-- api.py `allowed_file`: a dot occurs in the filename and the lowercased
suffix after the last dot is one of the allowed extensions. -/
def allowed_file (filename : String) : Bool :=
  filename.data.contains '.' && ALLOWED_EXTENSIONS.contains (lowerStr (extOf filename))

/-! ### The inference model and the api.py service (api.py) -/

/-- The loaded keras model: everything up to the final softmax is abstracted
as a function from the preprocessed image to the 8 pre-activation values of
the `classifier` layer. -/
structure ModelArtifact where
  logits : List ℚ → Fin 8 → ℚ

/-- `model.predict`: forward pass — logits followed by the softmax output
activation. -/
def predict (m : ModelArtifact) (img : List ℚ) : Fin 8 → ℚ :=
  softmax (m.logits img)

/-- api.py lines 50-59, `CANCER_CLASSES`: class id to display name. -/
def classNames : List String :=
  [ "Actinic keratoses and intraepithelial carcinomae"
  , "Basal Cell Carcinoma"
  , "Benign Keratosis"
  , "Dermatofibroma"
  , "Melanocytic nevus"
  , "Vascular Lesion"
  , "Melanoma"
  , "No Cancer Detected" ]

def CANCER_CLASSES (i : Fin 8) : String := classNames.getD i.val ""

/-- api.py lines 62-103, `CANCER_INFO`: the severity tier of each class. -/
def severityTiers : List String :=
  ["moderate", "high", "low", "low", "low", "low", "critical", "none"]

def severityOf (i : Fin 8) : String := severityTiers.getD i.val ""

/-- The success payload built by `analyze_image` (api.py lines 171-180). -/
structure PredictionResult where
  diagnosis_class : Nat
  diagnosis : String
  confidence : ℚ
  severity : String
  probabilities : List (String × ℚ)
  deriving DecidableEq, Repr

/-- api.py lines 162-180: from the prediction vector, take
`int(np.argmax(predictions))`, the class-name lookup,
`float(np.max(predictions))`, the severity lookup, and the per-class
probability dictionary keyed by class name in index order. -/
def predictionOf (predictions : Fin 8 → ℚ) : PredictionResult :=
  ⟨ (argmaxIdx predictions).val
  , CANCER_CLASSES (argmaxIdx predictions)
  , npmax predictions
  , severityOf (argmaxIdx predictions)
  , (List.finRange 8).map (fun i => (CANCER_CLASSES i, predictions i)) ⟩

/-- One upload as the analyze route sees it: whether the multipart field
`file` is present, the client filename, whether the saved bytes decode as an
image, and the decoded pixel values. -/
structure AnalyzeRequest where
  hasFile : Bool
  filename : String
  decodeOk : Bool
  pixels : List ℚ

/-- api.py `analyze_image` (lines 149-186): decode, preprocess, predict and
build the result; the `except` branch (decode or prediction failure) is the
`success: False` dictionary, modelled as `none`. -/
def analyze_image (m : ModelArtifact) (req : AnalyzeRequest) :
    Option PredictionResult :=
  if req.decodeOk then
    some (predictionOf (predict m (analyzePreprocess req.pixels)))
  else none

/-- The distinct response shapes of the `/api/analyze` route. -/
inductive AnalyzeResp where
  | unavailable                 -- 503 "Model not loaded"
  | noFile                      -- 400 "No file provided"
  | noSelection                 -- 400 "No file selected."
  | invalidType                 -- 400 "Invalid file type. Allowed types: PNG, JPG, JPEG, GIF"
  | ok (r : PredictionResult)   -- 200 with the analysis payload
  | analysisFailed              -- 500, file cleaned up

/-- Side effects performed while handling one analyze request. -/
structure AnalyzeEffects where
  savedFile : Bool           -- `file.save(filepath)` executed
  analyzeImageCalled : Bool  -- `analyze_image` (and hence image decode) entered
  predictCalled : Bool       -- `model.predict` executed
  fileRemoved : Bool         -- `os.remove(filepath)` executed
  deriving DecidableEq, Repr

def noEffects : AnalyzeEffects := ⟨false, false, false, false⟩

/-- The api.py process state relevant to serving: the module-level `model`
global, set only by `load_ml_model()` which runs in `__main__` before
`app.run`. -/
structure ApiState where
  model : Option ModelArtifact

/-- api.py `analyze` route (lines 202-271), transcribed check for check:
model-None guard (503), missing `file` field (400), empty filename (400),
`allowed_file` validation (400); only then save, call `analyze_image`, and
on its failure remove the saved file and answer 500. -/
def analyzeRoute (st : ApiState) (req : AnalyzeRequest) :
    ApiState × AnalyzeResp × AnalyzeEffects :=
  match st.model with
  | none => (st, .unavailable, noEffects)
  | some m =>
    if req.hasFile = false then (st, .noFile, noEffects)
    else if req.filename = "" then (st, .noSelection, noEffects)
    else if allowed_file req.filename = false then (st, .invalidType, noEffects)
    else
      match analyze_image m req with
      | some r => (st, .ok r, ⟨true, true, true, false⟩)
      | none => (st, .analysisFailed, ⟨true, true, false, true⟩)

/-- The `/api/health` response body and status code (api.py lines 192-200). -/
structure HealthResponse where
  status : String
  model_loaded : Bool
  httpCode : Nat

/-- api.py `health_check`: unconditionally `(\x7b'status': 'healthy',
'model_loaded': model is not None, ...\x7d, 200)`. -/
def health_check (st : ApiState) : ApiState × HealthResponse :=
  (st, ⟨"healthy", st.model.isSome, 200⟩)

/-- The requests the api.py service answers. -/
inductive ApiRequest where
  | health
  | analyze (req : AnalyzeRequest)
  | info
  | getImage (name : String)

/-- One request step of the api.py service: the resulting module state and
the number of `load_model` calls the handler performed.  No route handler in
api.py contains a `load_model`/`load_ml_model` call — loading happens only
in `__main__` before `app.run` — so every branch reports 0 loads; `info`
reads only the static taxonomy and `get_image` only the upload directory. -/
def apiStep (st : ApiState) (r : ApiRequest) : ApiState × Nat :=
  match r with
  | .health => ((health_check st).1, 0)
  | .analyze a => ((analyzeRoute st a).1, 0)
  | .info => (st, 0)
  | .getImage _ => (st, 0)

/-- Serve a sequence of requests: final module state and total number of
model loads performed while serving. -/
def apiServe : ApiState → List ApiRequest → ApiState × Nat
  | st, [] => (st, 0)
  | st, r :: rs =>
    let s := apiStep st r
    let rest := apiServe s.1 rs
    (rest.1, s.2 + rest.2)

/-! ### The app.py serving variant (app.py lines 65-115)

The `/q2` route loads the model from disk inside the request handler on
every POST. -/

/-- Serving-time counters of the app.py process. -/
structure Q2State where
  modelLoadsWhileServing : Nat

/-- One request to `/q2`: the method (POST or GET) and the uploaded image
pixels. -/
structure Q2Request where
  isPost : Bool
  pixels : List ℚ

/-- app.py `q2` (lines 65-115): on POST it saves the upload, re-opens it,
calls `load_model(model_path)` (one load per request), compiles, decodes via
`load_img(..., target_size=(28, 28))`, predicts, and renders the class name
of `np.argmax(predictions)`; on GET it only renders the form.
`artifactOnDisk` stands for the artifact stored at `model_path`. -/
def q2Route (artifactOnDisk : ModelArtifact) (st : Q2State) (r : Q2Request) :
    Q2State × Option Nat :=
  if r.isPost then
    let m := artifactOnDisk
    let predictions := predict m (analyzePreprocess r.pixels)
    (⟨st.modelLoadsWhileServing + 1⟩, some (argmaxIdx predictions).val)
  else (st, none)

/-- Serve a sequence of `/q2` requests, accumulating the load counter. -/
def q2Serve (a : ModelArtifact) (st : Q2State) (rs : List Q2Request) : Q2State :=
  rs.foldl (fun s r => (q2Route a s r).1) st

/-! ### Dataset balancing (SkinCancerModelCreation.py lines 62-85)

`RandomOverSampler().fit_resample(Data, Label)` is applied to the tabular
7-class label column only; the non-cancer instances (label 7) are appended
afterwards.  `fit_resample` with the default sampling strategy keeps every
original row and appends, for each class present in the labels, enough
resampled duplicates to bring that class up to the majority count.  The
embedding tracks the label column, which carries all count information. -/

/-- The largest per-class count among the tabular classes 0..6. -/
def tabularMax (l : List Nat) : Nat :=
  ((List.range 7).map (fun c => l.count c)).foldr max 0

/-- Label column after `oversample.fit_resample`: the original labels
followed by, per class present, the labels of the resampled duplicates. -/
def fitResampleLabels (l : List Nat) : List Nat :=
  l ++ ((List.range 7).map (fun c =>
    if l.count c = 0 then [] else List.replicate (tabularMax l - l.count c) c)).flatten

/-- Label column after the non-cancer append loop (lines 78-79): `k` images
from the benign directory, each labelled 7. -/
def mergedLabels (l : List Nat) (k : Nat) : List Nat :=
  fitResampleLabels l ++ List.replicate k 7

/-- A concrete tabular label column with per-class counts
[100, 10, 5, 1, 1, 1, 1]. -/
def exLabels : List Nat :=
  List.replicate 100 0 ++ List.replicate 10 1 ++ List.replicate 5 2 ++ [3, 4, 5, 6]

/-! ### Train/test split (SkinCancerModelCreation.py line 104)

`train_test_split(Data, Label, test_size=0.25, random_state=49)` is modelled
on index sets: a pseudorandom permutation of `range n` determined entirely
by the seed (an LCG-keyed sort stands in for numpy's seeded shuffle), whose
first `ceil(0.25 * n)` entries are the test indices and the rest the train
indices. -/

def lcg (x : Nat) : Nat := (1103515245 * x + 12345) % 2147483648

/-- Pseudorandom sort key of index `i` under the given seed. -/
def shuffleKey (seed i : Nat) : Nat := lcg (seed * 1000003 + lcg i)

/-- The seeded pseudorandom permutation of the dataset indices. -/
def shuffledIdx (seed n : Nat) : List Nat :=
  (List.range n).mergeSort (fun a b => Nat.ble (shuffleKey seed a) (shuffleKey seed b))

/-- Number of held-out test instances: `ceil(0.25 * n)` (sklearn rounds the
test fraction up). -/
def nTest (n : Nat) : Nat := (n + 3) / 4

/-- The split as (train indices, test indices). -/
def train_test_split (seed n : Nat) : List Nat × List Nat :=
  ((shuffledIdx seed n).drop (nTest n), (shuffledIdx seed n).take (nTest n))

/-! ### Confusion matrix (SkinCancerModelCreation.py lines 246-255)

`classes_labels` is built by iterating over `classes.keys()`, whose order is
the insertion order of the `classes` dict literal at lines 90-97:
nv=4, mel=6, bkl=2, bcc=1, vasc=5, akiec=0, df=3, nc=7. -/

def classes_labels : List Nat := [4, 6, 2, 1, 5, 0, 3, 7]

/-- `sklearn.metrics.confusion_matrix(y_true, y_pred, labels=L)`: entry
(i, j) counts the samples whose true label is `L[i]` and predicted label is
`L[j]`. -/
def confusion_matrix (y_true y_pred : List Nat) (labels : List Nat) :
    List (List Nat) :=
  labels.map (fun a => labels.map (fun b =>
    ((y_true.zip y_pred).filter (fun r => r.1 == a)).countP (fun r => r.2 == b)))

def rowSums (m : List (List Nat)) : List Nat := m.map (fun row => row.sum)

/-! ## Theorems -/

/-! ### C1 — serve-time vs. train/evaluate-time rescale -/

/-- C1 (evaluation of the code at the failing input): both generators are
configured with the rescale factor 1/255 and `testgen` applies no geometric
perturbation, but the serve-path preprocessing of `analyze_image` leaves a
pixel of value 255 at 255, where the rescale-only `testgen` policy would
produce 1 — the serve path applies no rescale, so it is not the rescale-only
policy the claim describes.  The pixels reaching `model.fit` and
`model.evaluate` are likewise unrescaled (neither generator is ever
connected to those calls, despite the comment above their definition). -/
theorem c1_serve_rescale_divergence :
    datagen.rescale = 1 / 255 ∧ testgen.rescale = 1 / 255 ∧
    noGeometric testgen ∧
    analyzePreprocess [255] = [255] ∧
    applyRescale testgen [255] = [1] ∧
    analyzePreprocess [255] ≠ applyRescale testgen [255] ∧
    fitInputPixels [255] = analyzePreprocess [255] ∧
    evaluateInputPixels [255] = analyzePreprocess [255] := by
  refine ⟨rfl, rfl, ⟨rfl, rfl, rfl, rfl⟩, rfl, ?_, ?_, rfl, rfl⟩
  · simp [applyRescale, testgen]
  · simp [analyzePreprocess, applyRescale, testgen]

/-! ### C5 — one artifact for the process lifetime -/

/-- Every branch of the api.py analyze route hands back the module state it
was given: no branch assigns the `model` global. -/
theorem analyzeRoute_preserves_state (st : ApiState) (req : AnalyzeRequest) :
    (analyzeRoute st req).1 = st := by
  unfold analyzeRoute
  split
  · rfl
  · split
    · rfl
    · split
      · rfl
      · split
        · rfl
        · split <;> rfl

/-- C5 counterexample: in the app.py serving variant cited by the claim, the
`q2` handler calls `load_model` on every POST; serving two POST uploads
performs two model loads during request handling, refuting "loaded once at
startup; no request handler loads, replaces, or mutates the model while
serving". -/
theorem c5_counterexample :
    (q2Serve ⟨fun _ _ => 0⟩ ⟨0⟩ [⟨true, []⟩, ⟨true, []⟩]).modelLoadsWhileServing = 2 ∧
    (2 : Nat) ≠ 0 := by
  exact ⟨rfl, by decide⟩

/-- C5 (amended): the api.py service does satisfy the claim — across any
sequence of requests from any startup state, the model reference never
changes and the handlers perform zero model loads; only the app.py `q2`
variant violates it by loading inside the handler. -/
theorem c5_api_model_constant (st : ApiState) (rs : List ApiRequest) :
    (apiServe st rs).1.model = st.model ∧ (apiServe st rs).2 = 0 := by
  induction rs generalizing st with
  | nil => exact ⟨rfl, rfl⟩
  | cons r rs ih =>
    have hstep : (apiStep st r).1.model = st.model := by
      cases r with
      | health => rfl
      | analyze a => exact congrArg ApiState.model (analyzeRoute_preserves_state st a)
      | info => rfl
      | getImage n => rfl
    have h2 : (apiStep st r).2 = 0 := by cases r <;> rfl
    refine ⟨?_, ?_⟩
    · show (apiServe (apiStep st r).1 rs).1.model = st.model
      rw [(ih (apiStep st r).1).1, hstep]
    · show (apiStep st r).2 + (apiServe (apiStep st r).1 rs).2 = 0
      rw [(ih (apiStep st r).1).2, h2]

/-! ### C7 — fail-fast extension validation -/

/-- C7: with a loaded model, a present upload field and a nonempty filename,
any filename failing `allowed_file` makes the analyze route answer the
400 invalid-file-type validation error, with no file save, no decode
(`analyze_image` is never entered), no prediction and no state change. -/
theorem c7_bad_extension_rejected (st : ApiState) (m : ModelArtifact)
    (req : AnalyzeRequest) (hm : st.model = some m) (hf : req.hasFile = true)
    (hn : ¬ req.filename = "") (he : allowed_file req.filename = false) :
    analyzeRoute st req = (st, AnalyzeResp.invalidType, noEffects) := by
  simp [analyzeRoute, hm, hf, hn, he]

/-- C7 witness: a concrete upload named "x.txt" against a loaded model is
rejected by validation with no side effects. -/
theorem c7_witness :
    analyzeRoute ⟨some ⟨fun _ _ => 0⟩⟩ ⟨true, "x.txt", true, []⟩
      = (⟨some ⟨fun _ _ => 0⟩⟩, AnalyzeResp.invalidType, noEffects) :=
  c7_bad_extension_rejected _ ⟨fun _ _ => 0⟩ _ rfl rfl (by decide) (by decide)

/-! ### C9 — health check -/

/-- C9: the health check answers HTTP 200 with status string "healthy" in
every service state — a missing model included — and signals degradation
solely through the `model_loaded` boolean, which is false exactly when no
model is loaded; the handler does not change the service state. -/
theorem c9_health_check_always_healthy (st : ApiState) :
    (health_check st).2.httpCode = 200 ∧
    (health_check st).2.status = "healthy" ∧
    ((health_check st).2.model_loaded = false ↔ st.model = none) ∧
    (health_check st).1 = st := by
  refine ⟨rfl, rfl, ?_, rfl⟩
  cases st with
  | mk m => cases m <;> simp [health_check]

/-! ### C3 — the prediction contract of analyze_image -/

theorem qexp_pos (q : ℚ) : 0 < qexp q := by
  unfold qexp
  split
  · linarith
  · have h1 : (0 : ℚ) < 1 - q := by linarith [not_le.mp (by assumption : ¬ 0 ≤ q)]
    exact div_pos one_pos h1

theorem sumExp_pos (z : Fin 8 → ℚ) : 0 < sumExp z := by
  apply List.sum_pos
  · intro x hx
    obtain ⟨j, _, rfl⟩ := List.mem_map.mp hx
    exact qexp_pos (z j)
  · intro hnil
    have hlen : ((List.finRange 8).map (fun j => qexp (z j))).length = 8 := by simp
    rw [hnil] at hlen
    simp at hlen

theorem sum_map_div (l : List (Fin 8)) (f : Fin 8 → ℚ) (S : ℚ) :
    (l.map (fun i => f i / S)).sum = (l.map f).sum / S := by
  induction l with
  | nil => simp
  | cons a l ih => simp [ih, add_div]

theorem softmax_sum_one (z : Fin 8 → ℚ) :
    ((List.finRange 8).map (softmax z)).sum = 1 := by
  unfold softmax
  rw [sum_map_div]
  exact div_self (sumExp_pos z).ne'

theorem argmax_fold_spec (p : Fin 8 → ℚ) (l : List (Fin 8)) :
    ∀ acc : Fin 8,
      p acc ≤ p (l.foldl (fun best i => if p best < p i then i else best) acc) ∧
      ∀ i ∈ l, p i ≤ p (l.foldl (fun best i => if p best < p i then i else best) acc) := by
  induction l with
  | nil =>
    intro acc
    exact ⟨le_refl _, by simp⟩
  | cons a l ih =>
    intro acc
    simp only [List.foldl_cons]
    have hstep : p acc ≤ p (if p acc < p a then a else acc) ∧
        p a ≤ p (if p acc < p a then a else acc) := by
      by_cases h : p acc < p a
      · simp only [if_pos h]
        exact ⟨le_of_lt h, le_refl _⟩
      · simp only [if_neg h]
        exact ⟨le_refl _, le_of_not_lt h⟩
    refine ⟨le_trans hstep.1 (ih _).1, ?_⟩
    intro i hi
    rcases List.mem_cons.mp hi with rfl | hmem
    · exact le_trans hstep.2 (ih _).1
    · exact (ih _).2 i hmem

theorem argmax_attains_max (p : Fin 8 → ℚ) (j : Fin 8) : p j ≤ p (argmaxIdx p) :=
  (argmax_fold_spec p (List.finRange 8) 0).2 j (List.mem_finRange j)

theorem max_fold_ge (l : List ℚ) :
    ∀ a : ℚ, a ≤ l.foldl max a ∧ ∀ x ∈ l, x ≤ l.foldl max a := by
  induction l with
  | nil =>
    intro a
    exact ⟨le_refl _, by simp⟩
  | cons b l ih =>
    intro a
    simp only [List.foldl_cons]
    refine ⟨le_trans (le_max_left a b) (ih (max a b)).1, ?_⟩
    intro x hx
    rcases List.mem_cons.mp hx with rfl | hmem
    · exact le_trans (le_max_right a x) (ih _).1
    · exact (ih _).2 x hmem

theorem max_fold_le (l : List ℚ) :
    ∀ a b : ℚ, a ≤ b → (∀ x ∈ l, x ≤ b) → l.foldl max a ≤ b := by
  induction l with
  | nil =>
    intro a b h _
    exact h
  | cons c l ih =>
    intro a b h hall
    simp only [List.foldl_cons]
    exact ih _ _ (max_le h (hall c (by simp))) (fun x hx => hall x (List.mem_cons_of_mem _ hx))

/-- `np.max` of the prediction vector is its value at the `np.argmax` index. -/
theorem npmax_eq_at_argmax (p : Fin 8 → ℚ) : npmax p = p (argmaxIdx p) := by
  apply le_antisymm
  · apply max_fold_le
    · exact argmax_attains_max p 0
    · intro x hx
      obtain ⟨j, _, rfl⟩ := List.mem_map.mp hx
      exact argmax_attains_max p j
  · exact (max_fold_ge ((List.finRange 8).map p) (p 0)).2 (p (argmaxIdx p))
      (List.mem_map_of_mem p (List.mem_finRange _))

/-- C3: for any model and decodable upload, analyze_image succeeds with a
result whose probability dictionary has 8 entries keyed by class name, whose
probability values sum to exactly 1 (the rational model of the float
"within tolerance" statement), whose diagnosis_class is the argmax index of
the prediction vector, and whose confidence is the probability at that
index, an upper bound of all 8 probabilities. -/
theorem c3_prediction_contract (m : ModelArtifact) (name : String) (pixels : List ℚ) :
    let p := predict m (analyzePreprocess pixels)
    let r := predictionOf p
    analyze_image m ⟨true, name, true, pixels⟩ = some r ∧
    r.probabilities.length = 8 ∧
    r.probabilities = (List.finRange 8).map (fun i => (CANCER_CLASSES i, p i)) ∧
    (r.probabilities.map (fun e => e.2)).sum = 1 ∧
    r.diagnosis_class = (argmaxIdx p).val ∧
    r.confidence = p (argmaxIdx p) ∧
    (∀ j : Fin 8, p j ≤ r.confidence) := by
  intro p r
  refine ⟨rfl, by simp [r, predictionOf], rfl, ?_, rfl, ?_, ?_⟩
  · show (((List.finRange 8).map (fun i => (CANCER_CLASSES i, p i))).map (fun e => e.2)).sum = 1
    rw [List.map_map]
    exact softmax_sum_one (m.logits (analyzePreprocess pixels))
  · exact npmax_eq_at_argmax p
  · intro j
    show p j ≤ npmax p
    rw [npmax_eq_at_argmax p]
    exact argmax_attains_max p j

/-! ### C6 — train/test split -/

/-- C6: the split holds out exactly `ceil(0.25 * n)` indices, the test and
train index lists together are a permutation of all dataset indices (so
their union is the full dataset and no index is lost or duplicated), the
two lists are disjoint, and re-running the split with the same seed gives
the identical partition. -/
theorem c6_split_partition (seed n : Nat) :
    ((train_test_split seed n).2 ++ (train_test_split seed n).1).Perm (List.range n) ∧
    List.Disjoint (train_test_split seed n).1 (train_test_split seed n).2 ∧
    (train_test_split seed n).2.length = (n + 3) / 4 ∧
    train_test_split seed n = train_test_split seed n := by
  have hperm : (shuffledIdx seed n).Perm (List.range n) := List.mergeSort_perm _ _
  have hlen : (shuffledIdx seed n).length = n := by
    rw [hperm.length_eq, List.length_range]
  have hnd : (shuffledIdx seed n).Nodup := hperm.nodup_iff.mpr (List.nodup_range n)
  refine ⟨?_, ?_, ?_, rfl⟩
  · show ((shuffledIdx seed n).take (nTest n) ++ (shuffledIdx seed n).drop (nTest n)).Perm
      (List.range n)
    rw [List.take_append_drop]
    exact hperm
  · exact (List.disjoint_take_drop hnd (le_refl _)).symm
  · show ((shuffledIdx seed n).take (nTest n)).length = (n + 3) / 4
    rw [List.length_take, hlen]
    simp only [nTest]
    omega

/-! ### C8 — dense/batch-normalization structure -/

/-- C8: the claim asserts the 32-unit dense layer is NOT followed by batch
normalization; in the source (lines 168-169) `Dense(units=32, ...,
kernel_regularizer=L1L2())` is immediately followed by
`BatchNormalization()`, refuting the claim. -/
theorem c8_counterexample :
    (Layer.dense 32 true, Layer.batchNorm) ∈ adjacentLayerPairs := by decide

/-- C8 (amended): each of the four hidden dense layers of widths 256, 128,
64, 32 is immediately followed by batch normalization — the 32-unit layer
included — and the 32-unit layer is the only dense layer carrying the
combined L1/L2 kernel regularizer. -/
theorem c8_dense_bn_structure :
    denseFollowedByBN 256 false = true ∧
    denseFollowedByBN 128 false = true ∧
    denseFollowedByBN 64 false = true ∧
    denseFollowedByBN 32 true = true ∧
    modelLayers.filter isRegularizedDense = [Layer.dense 32 true] := by
  decide

/-! ### C2 — class balancing -/

theorem mem_le_foldr_max (l : List Nat) (x : Nat) (h : x ∈ l) :
    x ≤ l.foldr max 0 := by
  induction l with
  | nil => simp at h
  | cons a l ih =>
    rcases List.mem_cons.mp h with rfl | hm
    · exact le_max_left _ _
    · exact le_trans (ih hm) (le_max_right _ _)

theorem count_le_tabularMax (l : List Nat) (c : Nat) (hc : c < 7) :
    l.count c ≤ tabularMax l :=
  mem_le_foldr_max _ _ (List.mem_map_of_mem _ (List.mem_range.mpr hc))

theorem sum_range_ite (n c : Nat) (f : Nat → Nat) (hc : c < n) :
    ((List.range n).map (fun d => if d = c then f d else 0)).sum = f c := by
  induction n with
  | zero => omega
  | succ n ih =>
    rw [List.range_succ, List.map_append, List.sum_append]
    by_cases h : c = n
    · subst h
      have h0 : ((List.range c).map (fun d => if d = c then f d else 0)).sum = 0 := by
        apply List.sum_eq_zero
        intro x hx
        obtain ⟨d, hd, rfl⟩ := List.mem_map.mp hx
        have hd2 : d ≠ c := Nat.ne_of_lt (List.mem_range.mp hd)
        simp [hd2]
      simp [h0]
    · have hc2 : c < n := by omega
      rw [ih hc2]
      have hne : n ≠ c := fun hh => h hh.symm
      simp [hne]

/-- After `fit_resample`, every tabular class present in the labels has
exactly the majority count. -/
theorem count_fitResample (l : List Nat) (c : Nat) (hc : c < 7)
    (hpos : 0 < l.count c) :
    (fitResampleLabels l).count c = tabularMax l := by
  unfold fitResampleLabels
  rw [List.count_append, List.count_flatten, List.map_map]
  have hfun : ((fun ll => List.count c ll) ∘ (fun d =>
      if l.count d = 0 then ([] : List Nat) else List.replicate (tabularMax l - l.count d) d))
      = fun d => if d = c then tabularMax l - l.count c else 0 := by
    funext d
    by_cases hdc : d = c
    · subst hdc
      have h0 : ¬ l.count d = 0 := by omega
      simp [h0, List.count_replicate]
    · by_cases h0 : l.count d = 0
      · simp [h0, hdc]
      · have hb : (d == c) = false := by simp [hdc]
        simp [h0, hdc, List.count_replicate, hb]
  rw [hfun, sum_range_ite 7 c _ hc]
  have hle := count_le_tabularMax l c hc
  omega

/-- `fit_resample` introduces no non-cancer label: label 7 has count 0 when
the input labels are all tabular. -/
theorem count7_fitResample (l : List Nat) (hl : ∀ x ∈ l, x < 7) :
    (fitResampleLabels l).count 7 = 0 := by
  unfold fitResampleLabels
  rw [List.count_append, List.count_flatten, List.map_map]
  have h1 : l.count 7 = 0 :=
    List.count_eq_zero.mpr (fun hmem => absurd (hl 7 hmem) (by omega))
  rw [h1, List.sum_eq_zero]
  · rfl
  · intro x hx
    obtain ⟨d, hd, rfl⟩ := List.mem_map.mp hx
    have hd7 : d < 7 := List.mem_range.mp hd
    by_cases h0 : l.count d = 0
    · simp [h0]
    · have hb : (d == 7) = false := by
        have : d ≠ 7 := by omega
        simp [this]
      simp [h0, List.count_replicate, hb]

/-- C2: on any tabular label column drawn from the 7 classes in which every
class occurs, `fit_resample` raises every one of the 7 class counts to the
pre-balancing maximum, and the `k` non-cancer instances appended afterwards
leave those counts untouched while class 7 keeps exactly its own count
`k`. -/
theorem c2_oversample_balances (l : List Nat) (k : Nat)
    (hl : ∀ x ∈ l, x < 7) (hpos : ∀ c, c < 7 → 0 < l.count c) :
    (∀ c, c < 7 → (mergedLabels l k).count c = tabularMax l) ∧
    (mergedLabels l k).count 7 = k := by
  constructor
  · intro c hc
    unfold mergedLabels
    rw [List.count_append, count_fitResample l c hc (hpos c hc), List.count_replicate]
    have h7 : ((7 : Nat) == c) = false := by
      have : (7 : Nat) ≠ c := by omega
      simp [this]
    simp [h7]
  · unfold mergedLabels
    rw [List.count_append, count7_fitResample l hl, List.count_replicate]
    simp

set_option maxRecDepth 8192 in
/-- C2 witness: on the concrete label column with per-class counts
[100, 10, 5, 1, 1, 1, 1] and 9 appended non-cancer instances, class 0 is
brought to the maximum count 100 and class 7 stays at 9. -/
theorem c2_witness :
    (mergedLabels exLabels 9).count 0 = 100 ∧ (mergedLabels exLabels 9).count 7 = 9 := by
  have h := c2_oversample_balances exLabels 9 (by decide) (by decide)
  have hm : tabularMax exLabels = 100 := by decide
  exact ⟨hm ▸ h.1 0 (by decide), h.2⟩

/-! ### C4 — confusion matrix -/

theorem sum_indicator_not_mem (L : List Nat) (x : Nat) (hx : x ∉ L) :
    (L.map (fun b => if x == b then 1 else 0)).sum = 0 := by
  apply List.sum_eq_zero
  intro y hy
  obtain ⟨b, hb, rfl⟩ := List.mem_map.mp hy
  have hxb : x ≠ b := fun h => hx (h ▸ hb)
  simp [hxb]

theorem sum_indicator_mem (L : List Nat) (x : Nat) (hL : L.Nodup) (hx : x ∈ L) :
    (L.map (fun b => if x == b then 1 else 0)).sum = 1 := by
  induction L with
  | nil => simp at hx
  | cons a L ih =>
    rw [List.map_cons, List.sum_cons]
    rcases List.mem_cons.mp hx with rfl | hmem
    · rw [sum_indicator_not_mem L x (List.nodup_cons.mp hL).1]
      simp
    · have hxa : x ≠ a := by
        rintro rfl
        exact (List.nodup_cons.mp hL).1 hmem
      rw [ih (List.nodup_cons.mp hL).2 hmem]
      simp [hxa]

/-- Partitioning a list of (true, predicted) pairs by predicted label over a
duplicate-free label list covering every prediction counts every pair
exactly once. -/
theorem sum_countP_partition (L : List Nat) (hL : L.Nodup) (l : List (Nat × Nat))
    (h : ∀ r ∈ l, r.2 ∈ L) :
    (L.map (fun b => l.countP (fun r => r.2 == b))).sum = l.length := by
  induction l with
  | nil => simp
  | cons r l ih =>
    have hfun : (fun b => (r :: l).countP (fun s => s.2 == b))
        = fun b => l.countP (fun s => s.2 == b) + (if r.2 == b then 1 else 0) := by
      funext b
      rw [List.countP_cons]
    rw [hfun, List.sum_map_add,
      ih (fun s hs => h s (List.mem_cons_of_mem _ hs)),
      sum_indicator_mem L r.2 hL (h r (List.mem_cons_self _ _))]
    simp

theorem countP_fst_zip (yt : List Nat) :
    ∀ (yp : List Nat) (a : Nat), yt.length = yp.length →
      (yt.zip yp).countP (fun r => r.1 == a) = yt.count a := by
  induction yt with
  | nil => simp
  | cons x yt ih =>
    intro yp a h
    cases yp with
    | nil => simp at h
    | cons y yp =>
      rw [List.zip_cons_cons, List.countP_cons, List.count_cons,
        ih yp a (by simpa using h)]

/-- Sum of one row of the confusion matrix: with predictions inside the
8-class id space, the row of true label `a` sums to the count of `a` among
the true labels. -/
theorem confusion_row_sum (yt yp : List Nat) (a : Nat)
    (hlen : yt.length = yp.length) (hp : ∀ x ∈ yp, x < 8) :
    ((classes_labels.map (fun b =>
      ((yt.zip yp).filter (fun r => r.1 == a)).countP (fun r => r.2 == b))).sum)
      = yt.count a := by
  have hnd : classes_labels.Nodup := by decide
  have hmem : ∀ r ∈ (yt.zip yp).filter (fun r => r.1 == a), r.2 ∈ classes_labels := by
    intro r hr
    have hr2 : r ∈ yt.zip yp := List.mem_of_mem_filter hr
    obtain ⟨r1, r2⟩ := r
    have hin : r2 ∈ yp := (List.of_mem_zip hr2).2
    have h8 : r2 < 8 := hp _ hin
    have hall : ∀ x, x < 8 → x ∈ classes_labels := by decide
    exact hall _ h8
  rw [sum_countP_partition classes_labels hnd _ hmem,
    ← List.countP_eq_length_filter, countP_fst_zip yt yp a hlen]

/-- C4 counterexample: for the one-instance test partition with true label 0
and predicted label 0, the row sums of the computed confusion matrix are
[0,0,0,0,0,1,0,0] (the count 1 sits in the row of class 4's position, index
5... the row whose label is 0 in `classes_labels` order), while the claimed
canonical 0..7 row ordering would demand per-class counts [1,0,0,0,0,0,0,0]:
the rows are ordered by `classes_labels = [4,6,2,1,5,0,3,7]`, not by the
canonical class-id order. -/
theorem c4_counterexample :
    rowSums (confusion_matrix [0] [0] classes_labels) = [0, 0, 0, 0, 0, 1, 0, 0] ∧
    (List.range 8).map (fun a => List.count a [0]) = [1, 0, 0, 0, 0, 0, 0, 0] ∧
    rowSums (confusion_matrix [0] [0] classes_labels)
      ≠ (List.range 8).map (fun a => List.count a [0]) := by
  decide

/-- C4 (amended): the evaluation confusion matrix is always 8x8, its rows
and columns are both ordered by `classes_labels = [4,6,2,1,5,0,3,7]` — the
insertion order of the `classes` dict, not the canonical 0..7 order — and
for every test partition (equal-length label lists with predictions in
0..7) the i-th row sums to the count of true label `classes_labels[i]`. -/
theorem c4_confusion_matrix_structure (yt yp : List Nat)
    (hlen : yt.length = yp.length) (hp : ∀ x ∈ yp, x < 8) :
    (confusion_matrix yt yp classes_labels).length = 8 ∧
    (∀ row ∈ confusion_matrix yt yp classes_labels, row.length = 8) ∧
    rowSums (confusion_matrix yt yp classes_labels)
      = classes_labels.map (fun a => yt.count a) := by
  refine ⟨by simp [confusion_matrix, classes_labels], ?_, ?_⟩
  · intro row hrow
    obtain ⟨a, _, rfl⟩ := List.mem_map.mp hrow
    simp [classes_labels]
  · unfold rowSums confusion_matrix
    rw [List.map_map]
    apply List.map_congr_left
    intro a _
    exact confusion_row_sum yt yp a hlen hp

/-- C4 witness: a concrete two-instance partition (true labels [0, 4],
predictions [4, 4]) instantiates the amended row-sum law. -/
theorem c4_witness :
    (confusion_matrix [0, 4] [4, 4] classes_labels).length = 8 ∧
    rowSums (confusion_matrix [0, 4] [4, 4] classes_labels)
      = classes_labels.map (fun a => List.count a [0, 4]) := by
  have h := c4_confusion_matrix_structure [0, 4] [4, 4] (by decide) (by decide)
  exact ⟨h.1, h.2.2⟩

/-! ### C10 — extension allow-list -/

/-- C10: `allowed_file` accepts a filename iff it contains a dot and the
lowercased suffix after its last dot is in the png/jpg/jpeg/gif allow-list;
in particular an uppercase extension as in "x.PNG" is accepted and a
dotless filename "x" is rejected. -/
theorem c10_allowed_file_characterization :
    (∀ f : String, allowed_file f = true ↔
      (f.data.contains '.' = true ∧ lowerStr (extOf f) ∈ ALLOWED_EXTENSIONS)) ∧
    allowed_file (String.mk ['x', '.', 'P', 'N', 'G']) = true ∧
    allowed_file (String.mk ['x']) = false := by
  refine ⟨fun f => ?_, by decide, by decide⟩
  simp [allowed_file, List.contains, List.elem_iff]

end SkinSense
